import Mathlib

/-
Verification development for the notebook link checker
(`.github/workflows/check_links.py`).

The Python source is shallowly embedded: pure helpers become Lean
functions over `String` / `List Char`; the network is represented by
explicit stub parameters (a transport result for one probe, a page-fetch
function for the issue listing, a post function for issue creation), and
the functions additionally return the observable calls they make so that
call-count properties can be stated.
-/

namespace CheckLinks

/-! ## Link extractor (`extract_links_from_markdown`)

The two regular expressions of the source are specialised scanners:
`\[([^\]]+)\]\(([^)]+)\)` for markdown links and `https?://[^\s\)]+` for
bare URLs.  Both patterns are deterministic (greedy character classes
followed by a mandatory literal), so Python's leftmost, non-overlapping
`re.findall` is: try to match at each position from the left; on success
emit the capture and continue after the match, on failure advance one
character. -/

/-- Match attempt for `\[([^\]]+)\]\(([^)]+)\)` anchored at the head of
`l`.  Returns the second capture group (the URL) and the total number of
characters consumed by the match. -/
def matchMarkdownAt : List Char → Option (String × Nat)
  | '[' :: rest =>
    let label := rest.takeWhile (fun c => c ≠ ']')
    if label = [] then none
    else
      match rest.drop label.length with
      | ']' :: '(' :: rest2 =>
        let url := rest2.takeWhile (fun c => c ≠ ')')
        if url = [] then none
        else
          match rest2.drop url.length with
          | ')' :: _ => some (String.mk url, label.length + url.length + 4)
          | _ => none
      | _ => none
  | _ => none

/-- `re.findall` for the markdown-link pattern: all (non-overlapping,
leftmost) URL captures, in document order. -/
def scanMarkdown : List Char → List String
  | [] => []
  | c :: cs =>
    match matchMarkdownAt (c :: cs) with
    | some (u, k) => u :: scanMarkdown (cs.drop (k - 1))
    | none => scanMarkdown cs
termination_by l => l.length
decreasing_by
  · simp only [List.length_drop, List.length_cons]
    omega
  · simp only [List.length_cons]
    omega

/-- Python's `\s` character class for `str` patterns (Unicode
whitespace). -/
def isPyWhitespace (c : Char) : Bool :=
  c == ' ' || c == '\t' || c == '\n' || c == '\r' ||
  c == Char.ofNat 11 || c == Char.ofNat 12 ||
  c == Char.ofNat 28 || c == Char.ofNat 29 || c == Char.ofNat 30 || c == Char.ofNat 31 ||
  c == Char.ofNat 133 || c == Char.ofNat 160 || c == Char.ofNat 5760 ||
  (8192 ≤ c.toNat && c.toNat ≤ 8202) ||
  c == Char.ofNat 8232 || c == Char.ofNat 8233 || c == Char.ofNat 8239 ||
  c == Char.ofNat 8287 || c == Char.ofNat 12288

/-- The character class `[^\s\)]` of the bare-URL pattern. -/
def urlCharOk (c : Char) : Bool := !(isPyWhitespace c) && !(c == ')')

/-- Match attempt for a fixed protocol literal followed by `[^\s\)]+`,
anchored at the head of `l`. -/
def matchBareProto (proto l : List Char) : Option (String × Nat) :=
  if proto.isPrefixOf l then
    let body := (l.drop proto.length).takeWhile urlCharOk
    if body = [] then none
    else some (String.mk (proto ++ body), proto.length + body.length)
  else none

/-- Match attempt for `https?://[^\s\)]+` anchored at the head of `l`
(the greedy `s?` tries `https://` before `http://`). -/
def matchBareAt (l : List Char) : Option (String × Nat) :=
  match matchBareProto "https://".data l with
  | some r => some r
  | none => matchBareProto "http://".data l

/-- `re.findall` for the bare-URL pattern. -/
def scanBare : List Char → List String
  | [] => []
  | c :: cs =>
    match matchBareAt (c :: cs) with
    | some (u, k) => u :: scanBare (cs.drop (k - 1))
    | none => scanBare cs
termination_by l => l.length
decreasing_by
  · simp only [List.length_drop, List.length_cons]
    omega
  · simp only [List.length_cons]
    omega

/-- The deduplication loop of `extract_links_from_markdown`: walk the
collected links, keep a link only when it has not been seen yet (the
source keeps a `seen` set and an ordered `unique_links` list; membership
in the output list is equivalent to membership in that set). -/
def dedupGo (acc : List String) : List String → List String
  | [] => acc
  | l :: ls => if l ∈ acc then dedupGo acc ls else dedupGo (acc ++ [l]) ls

/-- `extract_links_from_markdown`: markdown-link targets first, then
bare URLs, then first-seen deduplication. -/
def extract_links_from_markdown (text : String) : List String :=
  dedupGo [] (scanMarkdown text.data ++ scanBare text.data)

/-! ## Link prober (`check_url`)

The network interaction of a single probe is abstracted into the result
the transport layer delivers for the request: a successful response
(status code and final URL after any auto-followed redirects), a raised
`urllib.error.HTTPError` (status code, `geturl()`, optional `Location`
header), a raised non-HTTP `urllib.error.URLError` (with `str(e.reason)`),
or any other raised exception (with `str(e)`).  `check_url` itself is the
pure classification of that result. -/

/-- Outcome of the underlying `urllib.request.urlopen` call. -/
inductive TransportResult where
  | success (code : Nat) (finalUrl : String)
  | httpError (code : Nat) (finalUrl : String) (location : Option String)
  | urlError (reason : String)
  | otherError (msg : String)
deriving DecidableEq, Repr

/-- `check_url`: returns `(status, status_code, final_url/info)`.  The
status strings are exactly the source's `'ok'`, `'404'`, `'redirect'`,
`'error'` (the spec's name for `'404'` is `not_found`).  In the redirect
branch `if location:` is a Python truthiness test, so a `Location`
header that is present but empty falls back to `e.geturl()` like an
absent one. -/
def check_url (url : String) (res : TransportResult) : String × Nat × String :=
  match res with
  | .success code finalUrl =>
    if finalUrl ≠ url then ("redirect", code, finalUrl)
    else if code = 404 then ("404", code, finalUrl)
    else if 400 ≤ code then ("error", code, finalUrl)
    else ("ok", code, finalUrl)
  | .httpError code finalUrl location =>
    if code = 404 then ("404", code, finalUrl)
    else if code = 301 ∨ code = 302 ∨ code = 303 ∨ code = 307 ∨ code = 308 then
      match location with
      | some loc =>
        if loc = "" then ("redirect", code, finalUrl) else ("redirect", code, loc)
      | none => ("redirect", code, finalUrl)
    else ("error", code, finalUrl)
  | .urlError reason => ("error", 0, reason)
  | .otherError msg => ("error", 0, msg)

/-! ## Notebook walk (`check_notebook_links`)

`urlparse(link).scheme` is modelled after CPython's `urlsplit`: strip
leading/trailing C0-control-or-space characters, remove tab/CR/LF, then
recognise `scheme:` when the text before the first colon starts with an
ASCII letter and consists of letters, digits, `+`, `-`, `.`; the scheme
is lowercased, otherwise it is the empty string. -/

/-- Characters CPython's `urlsplit` strips from both ends of the URL. -/
def isC0OrSpace (c : Char) : Bool := c.toNat ≤ 32

/-- `url.strip(_WHATWG_C0_CONTROL_OR_SPACE)`. -/
def stripC0 (cs : List Char) : List Char :=
  ((cs.dropWhile isC0OrSpace).reverse.dropWhile isC0OrSpace).reverse

/-- Removal of `_UNSAFE_URL_BYTES_TO_REMOVE` (tab, CR, LF). -/
def removeTabCrLf (cs : List Char) : List Char :=
  cs.filter (fun c => !(c == '\t' || c == '\r' || c == '\n'))

/-- CPython's `scheme_chars`. -/
def isSchemeChar (c : Char) : Bool := c.isAlphanum || c == '+' || c == '-' || c == '.'

/-- `urlparse(url).scheme`. -/
def schemeOf (url : String) : String :=
  let cs := removeTabCrLf (stripC0 url.data)
  match cs.findIdx? (fun c => c == ':') with
  | none => ""
  | some i =>
    if i = 0 then ""
    else
      match cs.take i with
      | [] => ""
      | c0 :: tl =>
        if c0.isAlpha && (c0 :: tl).all isSchemeChar then
          String.mk ((c0 :: tl).map Char.toLower)
        else ""

/-- A notebook cell: `cell_type` and the `source` line fragments. -/
structure Cell where
  cell_type : String
  source : List String
deriving DecidableEq, Repr

/-- One entry of the `issues` list built by `check_notebook_links`. -/
structure LinkIssue where
  notebook : String
  cell : Nat
  url : String
  status : String
  status_code : Nat
  info : String
deriving DecidableEq, Repr

/-- The skip condition of the per-link loop:
`if not parsed.scheme or parsed.scheme in ('file', '')`. -/
def shouldSkipLink (link : String) : Bool :=
  schemeOf link == "" || schemeOf link == "file"

/-- The per-link loop of `check_notebook_links` for one markdown cell.
`probe` stands for `check_url`; besides the recorded issues the model
returns the list of URLs actually passed to `check_url`, in call order. -/
def processLinks (nbPath : String) (cellIdx : Nat) (probe : String → String × Nat × String) :
    List String → List LinkIssue × List String
  | [] => ([], [])
  | link :: rest =>
    if shouldSkipLink link then processLinks nbPath cellIdx probe rest
    else
      let r := probe link
      let tail := processLinks nbPath cellIdx probe rest
      if r.1 = "404" ∨ r.1 = "redirect" ∨ r.1 = "error" then
        (⟨nbPath, cellIdx, link, r.1, r.2.1, r.2.2⟩ :: tail.1, link :: tail.2)
      else (tail.1, link :: tail.2)

/-- The `enumerate(notebook.get('cells', []))` loop. -/
def processCells (nbPath : String) (probe : String → String × Nat × String) :
    Nat → List Cell → List LinkIssue × List String
  | _, [] => ([], [])
  | idx, c :: cs =>
    let here :=
      if c.cell_type = "markdown" then
        processLinks nbPath idx probe (extract_links_from_markdown (String.join c.source))
      else ([], [])
    let rest := processCells nbPath probe (idx + 1) cs
    (here.1 ++ rest.1, here.2 ++ rest.2)

/-- `check_notebook_links`: returns `(issues, probed URLs)`. -/
def check_notebook_links (nbPath : String) (cells : List Cell)
    (probe : String → String × Nat × String) : List LinkIssue × List String :=
  processCells nbPath probe 0 cells

/-! ## Issue payload construction (`GitHubIssueManager.create_issue`) -/

/-- `str.upper()` (the statuses fed to it are ASCII). -/
def pyUpper (s : String) : String := String.mk (s.data.map Char.toUpper)

/-- `Path(p).name`: the final path component; pathlib drops empty and
`.` components. -/
def pathName (p : String) : String :=
  match ((p.splitOn "/").filter (fun s => !(s == "") && !(s == "."))).getLast? with
  | some s => s
  | none => ""

/-- The title truncation: `url[:57] + '...'` when `len(url) > 60`. -/
def url_short (url : String) : String :=
  if url.length > 60 then url.take 57 ++ "..." else url

/-- `title = f"Broken link: {url_short}"`. -/
def buildTitle (d : LinkIssue) : String := "Broken link: " ++ url_short d.url

/-- The fixed leading part of the issue body template (the f-string of
the source, with the atoms of each embedded line kept apart). -/
def bodyHeader (d : LinkIssue) : String :=
  "## Broken Link Detected\n\n" ++ ("**Status:** " ++ pyUpper d.status) ++ "\n" ++
  ("**URL:** `" ++ d.url ++ "`") ++ "\n" ++
  ("**Notebook:** `" ++ pathName d.notebook ++ "`") ++ "\n" ++
  ("**Cell:** " ++ toString d.cell) ++ "\n\n"

/-- The optional HTTP-status-code line (`if issue_data['status_code']:`). -/
def httpCodeLine (d : LinkIssue) : String :=
  "**HTTP Status Code:** " ++ toString d.status_code ++ "\n\n"

/-- The optional additional-info line (`if issue_data['info']:`). -/
def infoLine (d : LinkIssue) : String :=
  "**Additional Info:** " ++ d.info ++ "\n\n"

/-- The fixed trailing part of the issue body template. -/
def bodyFooter : String :=
  "---\n\nThis issue was automatically created by the link checker workflow.\nPlease verify the link and update the notebook if necessary.\n"

/-- The complete issue body. -/
def buildBody (d : LinkIssue) : String :=
  bodyHeader d ++ (if d.status_code ≠ 0 then httpCodeLine d else "") ++
    (if d.info ≠ "" then infoLine d else "") ++ bodyFooter

/-- The JSON payload POSTed to the tracker's create endpoint. -/
structure IssuePayload where
  title : String
  body : String
  labels : List String
deriving DecidableEq, Repr

/-- `issue_data_payload` as built by `create_issue`. -/
def buildPayload (d : LinkIssue) : IssuePayload :=
  ⟨buildTitle d, buildBody d, ["broken-link", "automated"]⟩

/-! ## Existing-issue fetch (`GitHubIssueManager.get_existing_issues`)

A Python `dict` is modelled as an insertion-ordered association list:
assignment to a present key updates it in place, otherwise appends. -/

/-- `d[k] = v`. -/
def dictInsert : List (String × Nat) → String → Nat → List (String × Nat)
  | [], k, v => [(k, v)]
  | (k1, v1) :: rest, k, v =>
    if k1 = k then (k, v) :: rest else (k1, v1) :: dictInsert rest k v

/-- `d.get(k)` (also `k in d`). -/
def dictLookup : List (String × Nat) → String → Option Nat
  | [], _ => none
  | (k1, v1) :: rest, k => if k1 = k then some v1 else dictLookup rest k

/-- The backtick character of the URL marker pattern. -/
def backtick : Char := Char.ofNat 96

/-- Match attempt for the pattern of
`re.search(r'\*\*URL:\*\* `([^`]+)`', body)` anchored at the head of
`l`: the literal marker, then a nonempty run of non-backtick characters,
then a closing backtick; returns the capture group. -/
def matchUrlMarkerAt (l : List Char) : Option String :=
  let pre := "**URL:** `".data
  if pre.isPrefixOf l then
    let rest := l.drop pre.length
    let u := rest.takeWhile (fun c => !(c == backtick))
    if u = [] then none
    else
      match rest.drop u.length with
      | c :: _ => if c == backtick then some (String.mk u) else none
      | [] => none
  else none

/-- `re.search`: leftmost match of the URL-marker pattern. -/
def findUrlMarkerGo : List Char → Option String
  | [] => none
  | c :: cs =>
    match matchUrlMarkerAt (c :: cs) with
    | some u => some u
    | none => findUrlMarkerGo cs

/-- URL extraction from an issue body. -/
def findUrlMarker (body : String) : Option String := findUrlMarkerGo body.data

/-- One fetched tracker issue: `issue['number']` and `issue.get('body', '')`. -/
structure RawIssue where
  number : Nat
  body : String
deriving DecidableEq, Repr

/-- The per-issue step of the fetch loop: record `url -> number` when the
body carries the marker. -/
def processIssue (m : List (String × Nat)) (i : RawIssue) : List (String × Nat) :=
  match findUrlMarker i.body with
  | some u => dictInsert m u i.number
  | none => m

/-- Processing of one fetched page into the accumulated mapping. -/
def processPage (issues : List RawIssue) (acc : List (String × Nat)) : List (String × Nat) :=
  issues.foldl processIssue acc

/-! ## Manager state and network stubs -/

/-- Python truthiness of an optional string (`None` and `''` are falsy). -/
def truthy : Option String → Bool
  | none => false
  | some s => !(s == "")

/-- The constructor-resolved state of `GitHubIssueManager`: whether the
`requests` library imported, and the resolved token and repository
(argument or environment). `self.session` is created exactly when all
three are truthy. -/
structure ManagerConfig where
  hasRequests : Bool
  token : Option String
  repository : Option String
deriving DecidableEq, Repr

/-- `self.session is not None`. -/
def sessionActive (c : ManagerConfig) : Bool :=
  c.hasRequests && truthy c.token && truthy c.repository

/-- The pagination loop of `get_existing_issues`.  `fetch page` stands
for the GET of one page (`.error` = a raised/`raise_for_status` error,
caught by the surrounding `try`, which returns the mapping built so
far).  Returns the mapping and the number of list calls issued.  `fuel`
bounds the recursion (the source loop has no such bound; every theorem
supplies enough fuel for its scenario). -/
def getIssuesLoop (fetch : Nat → Except String (List RawIssue)) :
    Nat → List (String × Nat) → Nat → Nat → List (String × Nat) × Nat
  | _, acc, calls, 0 => (acc, calls)
  | page, acc, calls, fuel + 1 =>
    match fetch page with
    | .error _ => (acc, calls + 1)
    | .ok issues =>
      if issues = [] then (acc, calls + 1)
      else
        let acc2 := processPage issues acc
        if issues.length < 100 then (acc2, calls + 1)
        else getIssuesLoop fetch (page + 1) acc2 (calls + 1) fuel

/-- `get_existing_issues`: returns `(url -> issue number, list calls)`. -/
def get_existing_issues (c : ManagerConfig) (fetch : Nat → Except String (List RawIssue))
    (fuel : Nat) : List (String × Nat) × Nat :=
  if !(sessionActive c) || !(truthy c.repository) then ([], 0)
  else getIssuesLoop fetch 1 [] 0 fuel

/-- `create_issue`: `post` stands for the creation POST (`none` = the
request raised / `raise_for_status` failed, caught and turned into a
`None` result).  Returns the reported issue number and the list of
creation writes performed.  When `existing` is `none` the source
re-fetches via `get_existing_issues` (hence the `fetch`/`fuel`
arguments). -/
def create_issue (c : ManagerConfig) (post : IssuePayload → Option Nat)
    (fetch : Nat → Except String (List RawIssue)) (fuel : Nat)
    (d : LinkIssue) (existing : Option (List (String × Nat))) :
    Option Nat × List IssuePayload :=
  if !(sessionActive c) || !(truthy c.repository) then (none, [])
  else
    let ex :=
      match existing with
      | some e => e
      | none => (get_existing_issues c fetch fuel).1
    match dictLookup ex d.url with
    | some n => (some n, [])
    | none =>
      let payload := buildPayload d
      match post payload with
      | some n => (some n, [payload])
      | none => (none, [payload])

/-- The reconciliation loop of `main`: the existing mapping is fetched
once and the same dict is passed to every `create_issue` call.  `post`
is indexed by the number of creation writes already performed, so a stub
can hand out fresh issue numbers.  Returns the reported ids (one per
record, in order) and all creation writes. -/
def reconcileGo (c : ManagerConfig) (post : Nat → IssuePayload → Option Nat)
    (fetch : Nat → Except String (List RawIssue)) (fuel : Nat)
    (existing : List (String × Nat)) :
    List LinkIssue → List (Option Nat) → List IssuePayload →
      List (Option Nat) × List IssuePayload
  | [], results, writes => (results, writes)
  | d :: ds, results, writes =>
    let r := create_issue c (post writes.length) fetch fuel d (some existing)
    reconcileGo c post fetch fuel existing ds (results ++ [r.1]) (writes ++ r.2)

/-- The whole per-run reconciliation (`main`'s loop over `all_issues`). -/
def reconcileAll (c : ManagerConfig) (post : Nat → IssuePayload → Option Nat)
    (fetch : Nat → Except String (List RawIssue)) (fuel : Nat)
    (records : List LinkIssue) (existing : List (String × Nat)) :
    List (Option Nat) × List IssuePayload :=
  reconcileGo c post fetch fuel existing records [] []

/-! ## Specification-side measuring definitions

These are not part of the source; the theorems compare the embedded
functions against them. -/

/-- Index of the first occurrence of `x` in `l` (`l.length` when
absent). -/
def firstIdx : List String → String → Nat
  | [], _ => 0
  | a :: l, x => if a = x then 0 else firstIdx l x + 1

/-- The number of the last issue in `issues` whose body carries the URL
marker for `u`. -/
def lastMarked (issues : List RawIssue) (u : String) : Option Nat :=
  ((issues.filter (fun i => findUrlMarker i.body == some u)).getLast?).map RawIssue.number

/-- `sub` occurs as a contiguous substring of `s`. -/
def strHasSub (s sub : String) : Prop :=
  ∃ a b : List Char, s.data = a ++ sub.data ++ b

/-! ## Theorems -/

/-- Claim C2, counterexample.  A successful transport response carrying
HTTP code 404 whose final URL differs from the requested URL is
classified `redirect`, not `not_found` (`'404'`): the redirect check of
the success branch precedes the 404 check. -/
theorem success_404_redirect_precedence_counterexample :
    check_url "http://a.example/" (TransportResult.success 404 "http://b.example/") =
      ("redirect", 404, "http://b.example/") := by
  decide

/-- Claim C2, amended.  A probe producing HTTP 404 yields status `'404'`
(the spec's `not_found`) with code 404, whether it arrives as a raised
protocol-level error (any final URL, any `Location` header) or as a
successful transport response — in the latter case provided the final
URL equals the requested URL, since otherwise the redirect
classification takes precedence. -/
theorem probe_404_not_found (url finalUrl : String) (loc : Option String) :
    check_url url (TransportResult.success 404 url) = ("404", 404, url) ∧
    check_url url (TransportResult.httpError 404 finalUrl loc) = ("404", 404, finalUrl) := by
  constructor
  · simp [check_url]
  · simp [check_url]

/-- Claim C4.  `check_url` is a total function of the transport result
(exactly one outcome, never an exception): every network-level failure
(`URLError`, i.e. DNS/connection/timeout failures) and every other
unexpected exception yields status `'error'`, code 0, with the info
field set to the reason string (`str(e.reason)` resp. `str(e)`), and
every possible transport result is classified into one of the four
statuses. -/
theorem check_url_error_totality (url reason msg : String) :
    check_url url (TransportResult.urlError reason) = ("error", 0, reason) ∧
    check_url url (TransportResult.otherError msg) = ("error", 0, msg) ∧
    ∀ res : TransportResult,
      (check_url url res).1 = "ok" ∨ (check_url url res).1 = "404" ∨
      (check_url url res).1 = "redirect" ∨ (check_url url res).1 = "error" := by
  refine ⟨rfl, rfl, ?_⟩
  intro res
  cases res with
  | success code finalUrl =>
    simp only [check_url]
    split_ifs <;> simp
  | httpError code finalUrl location =>
    cases location <;> simp only [check_url] <;> split_ifs <;> simp
  | urlError reason2 => simp [check_url]
  | otherError msg2 => simp [check_url]

/-- Claim C5, counterexample.  An unfollowed 301 whose `Location`
header is present but empty: the source's `if location:` is a Python
truthiness test, so the empty header is falsy and the code returns the
response's own URL as target, not the (empty) header value the claim
demands for a present header. -/
theorem empty_location_header_counterexample :
    check_url "http://a/" (TransportResult.httpError 301 "http://a/" (some "")) =
      ("redirect", 301, "http://a/") := by
  decide

/-- Claim C5, amended.  Redirect classification: a successful response
whose final URL differs from the requested URL is `redirect` (whatever
the code) with the final URL as target; an unfollowed protocol-level
redirect (301/302/303/307/308) is `redirect` with the redirect's code
and with the `Location` header as target when present and non-empty,
else (absent or empty header) the response's own URL. -/
theorem check_url_redirect_classification (url : String) (code : Nat) (finalUrl loc : String) :
    (finalUrl ≠ url →
      check_url url (TransportResult.success code finalUrl) = ("redirect", code, finalUrl)) ∧
    (code = 301 ∨ code = 302 ∨ code = 303 ∨ code = 307 ∨ code = 308 →
      (loc ≠ "" →
        check_url url (TransportResult.httpError code finalUrl (some loc)) =
          ("redirect", code, loc)) ∧
      check_url url (TransportResult.httpError code finalUrl (some "")) =
        ("redirect", code, finalUrl) ∧
      check_url url (TransportResult.httpError code finalUrl none) =
        ("redirect", code, finalUrl)) := by
  constructor
  · intro h
    simp [check_url, h]
  · intro h
    have h404 : ¬ code = 404 := by rcases h with h | h | h | h | h <;> omega
    refine ⟨fun hloc => ?_, ?_, ?_⟩ <;> simp [check_url, h404, h]
    intro e
    exact absurd e hloc

/-- Witness for `check_url_redirect_classification` at concrete inputs,
covering the non-empty-header, empty-header and absent-header cases. -/
theorem check_url_redirect_classification_witness :
    check_url "http://a/" (TransportResult.success 200 "http://b/") =
      ("redirect", 200, "http://b/") ∧
    check_url "http://a/" (TransportResult.httpError 301 "http://a/" (some "http://l/")) =
      ("redirect", 301, "http://l/") ∧
    check_url "http://a/" (TransportResult.httpError 302 "http://a/" (some "")) =
      ("redirect", 302, "http://a/") := by
  refine ⟨?_, ?_, ?_⟩
  · exact (check_url_redirect_classification "http://a/" 200 "http://b/" "x").1 (by decide)
  · exact ((check_url_redirect_classification "http://a/" 301 "http://a/" "http://l/").2
      (Or.inl rfl)).1 (by decide)
  · exact ((check_url_redirect_classification "http://a/" 302 "http://a/" "x").2
      (Or.inr (Or.inl rfl))).2.1

/-- Lookup after a Python-dict assignment: the assigned key now maps to
the new value, every other key is unchanged. -/
theorem dictLookup_insert (m : List (String × Nat)) (k u : String) (v : Nat) :
    dictLookup (dictInsert m k v) u = if k = u then some v else dictLookup m u := by
  induction m with
  | nil => simp [dictInsert, dictLookup]
  | cons p rest ih =>
    obtain ⟨k1, v1⟩ := p
    by_cases h : k1 = k
    · subst h
      by_cases h2 : k1 = u <;> simp [dictInsert, dictLookup, h2]
    · by_cases h2 : k1 = u
      · subst h2
        have hne : ¬ k = k1 := fun e => h e.symm
        simp [dictInsert, dictLookup, h, hne]
      · simp [dictInsert, dictLookup, h, h2, ih]

/-- Claim C10.  In `get_existing_issues`, an issue whose body does not
contain the `**URL:** `-marker contributes nothing to the mapping, and
when several fetched issues carry the same URL the mapping holds the
number of the last one in fetch order (later assignments overwrite
earlier ones). -/
theorem marker_extraction_last_wins :
    (∀ (xs ys : List RawIssue) (i : RawIssue) (acc : List (String × Nat)),
        findUrlMarker i.body = none →
        processPage (xs ++ i :: ys) acc = processPage (xs ++ ys) acc) ∧
    (∀ (issues : List RawIssue) (acc : List (String × Nat)) (u : String),
        dictLookup (processPage issues acc) u =
          match lastMarked issues u with
          | some n => some n
          | none => dictLookup acc u) := by
  constructor
  · intro xs ys i acc h
    simp [processPage, List.foldl_append, processIssue, h]
  · intro issues acc u
    induction issues using List.reverseRecOn with
    | nil => simp [processPage, lastMarked]
    | append_singleton l i ih =>
      rw [processPage, List.foldl_append]
      cases hm : findUrlMarker i.body with
      | none =>
        have hfilter : lastMarked (l ++ [i]) u = lastMarked l u := by
          simp [lastMarked, List.filter_append, List.filter, hm]
        rw [hfilter, List.foldl_cons, List.foldl_nil]
        rw [processIssue, hm]
        exact ih
      | some v =>
        by_cases hv : v = u
        · subst hv
          have hfilter : (l ++ [i]).filter (fun j => findUrlMarker j.body == some v) =
              l.filter (fun j => findUrlMarker j.body == some v) ++ [i] := by
            simp [List.filter_append, List.filter, hm]
          simp only [List.foldl_cons, List.foldl_nil, processIssue, hm]
          rw [dictLookup_insert]
          simp [lastMarked, hfilter, List.getLast?_concat]
        · have hbeq : (v == u) = false := by simp [hv]
          have hfilter : lastMarked (l ++ [i]) u = lastMarked l u := by
            simp [lastMarked, List.filter_append, List.filter, hm, hbeq]
          rw [hfilter]
          simp only [List.foldl_cons, List.foldl_nil, processIssue, hm]
          rw [dictLookup_insert]
          simp only [if_neg hv]
          exact ih

/-- Witness for `marker_extraction_last_wins`: a marker-less issue
changes nothing, and of two issues embedding the same URL the later
number wins. -/
theorem marker_extraction_last_wins_witness :
    processPage ([⟨1, "**URL:** `http://a`"⟩] ++
        (⟨2, "no marker here"⟩ : RawIssue) :: [⟨3, "**URL:** `http://a`"⟩]) [] =
      processPage ([⟨1, "**URL:** `http://a`"⟩] ++ [⟨3, "**URL:** `http://a`"⟩]) [] ∧
    dictLookup (processPage [⟨1, "**URL:** `http://a`"⟩, ⟨2, "no marker here"⟩,
        ⟨3, "**URL:** `http://a`"⟩] []) "http://a" = some 3 := by
  constructor
  · exact marker_extraction_last_wins.1 [⟨1, "**URL:** `http://a`"⟩]
      [⟨3, "**URL:** `http://a`"⟩] ⟨2, "no marker here"⟩ [] (by decide)
  · rw [marker_extraction_last_wins.2 [⟨1, "**URL:** `http://a`"⟩, ⟨2, "no marker here"⟩,
      ⟨3, "**URL:** `http://a`"⟩] [] "http://a"]
    decide

/-- Claim C6.  With the manager enabled, a tracker whose page 1 holds
exactly 100 issues and whose page 2 is empty makes the fetch-existing
step issue exactly 2 list calls and return the mapping built from
page 1's items alone (pagination continues on a full page of 100 and
stops on the empty page). -/
theorem get_existing_issues_two_pages (c : ManagerConfig)
    (fetch : Nat → Except String (List RawIssue)) (p1 : List RawIssue) (fuel : Nat)
    (hs : sessionActive c = true) (hr : truthy c.repository = true)
    (h1 : fetch 1 = Except.ok p1) (hlen : p1.length = 100)
    (h2 : fetch 2 = Except.ok []) (hfuel : 2 ≤ fuel) :
    get_existing_issues c fetch fuel = (processPage p1 [], 2) := by
  obtain ⟨f, rfl⟩ : ∃ f, fuel = f + 2 := ⟨fuel - 2, by omega⟩
  have hne : ¬ p1 = [] := by
    intro h
    rw [h] at hlen
    simp at hlen
  have hnotshort : ¬ p1.length < 100 := by omega
  simp only [get_existing_issues, hs, hr, Bool.not_true, Bool.or_self, Bool.false_eq_true,
    if_false]
  rw [show f + 2 = (f + 1) + 1 by omega]
  rw [getIssuesLoop, h1]
  simp only [hne, if_false, hnotshort]
  rw [getIssuesLoop, h2]
  simp

/-- Witness for `get_existing_issues_two_pages`: a concrete stub tracker
with 100 marker-less issues on page 1 and none on page 2 produces 2
list calls and an empty mapping. -/
theorem get_existing_issues_two_pages_witness :
    get_existing_issues ⟨true, some "tok", some "owner/repo"⟩
      (fun p => if p = 1 then Except.ok ((List.range 100).map (fun i => ⟨i, ""⟩)) else Except.ok [])
      5 = ([], 2) := by
  rw [get_existing_issues_two_pages ⟨true, some "tok", some "owner/repo"⟩
    (fun p => if p = 1 then Except.ok ((List.range 100).map (fun i => ⟨i, ""⟩)) else Except.ok [])
    ((List.range 100).map (fun i => ⟨i, ""⟩)) 5 rfl rfl rfl (by simp) rfl (by omega)]
  decide

/-- Claim C7.  A manager lacking a (truthy) credential or repository
identifier is a silent no-op: `get_existing_issues` returns the empty
mapping having made 0 list calls, and `create_issue` returns `None`
having made no creation write, for every record and every stub. -/
theorem disabled_manager_noop (c : ManagerConfig)
    (h : truthy c.token = false ∨ truthy c.repository = false) :
    (∀ (fetch : Nat → Except String (List RawIssue)) (fuel : Nat),
        get_existing_issues c fetch fuel = ([], 0)) ∧
    (∀ (post : IssuePayload → Option Nat) (fetch : Nat → Except String (List RawIssue))
        (fuel : Nat) (d : LinkIssue) (existing : Option (List (String × Nat))),
        create_issue c post fetch fuel d existing = (none, [])) := by
  have hcond : (!(sessionActive c) || !(truthy c.repository)) = true := by
    rcases h with h | h <;> simp [sessionActive, h]
  constructor
  · intro fetch fuel
    simp [get_existing_issues, hcond]
  · intro post fetch fuel d existing
    simp [create_issue, hcond]

/-- Witness for `disabled_manager_noop`: a manager with no token. -/
theorem disabled_manager_noop_witness :
    get_existing_issues ⟨true, none, some "owner/repo"⟩ (fun _ => Except.ok []) 3 = ([], 0) ∧
    create_issue ⟨true, none, some "owner/repo"⟩ (fun _ => some 1) (fun _ => Except.ok []) 3
      ⟨"nb.ipynb", 0, "http://x.com", "404", 404, ""⟩ (some []) = (none, []) := by
  have h := disabled_manager_noop ⟨true, none, some "owner/repo"⟩ (Or.inl rfl)
  exact ⟨h.1 (fun _ => Except.ok []) 3, h.2 (fun _ => some 1) (fun _ => Except.ok []) 3
    ⟨"nb.ipynb", 0, "http://x.com", "404", 404, ""⟩ (some [])⟩

/-- Claim C1, failing-input evaluation.  Two FailureRecords carrying the
same URL `http://x.com`, absent from the (empty) shared existing-issues
mapping: the run performs two creation writes and reports two different
ticket ids (100 and 101 from the stub), because `main` never updates the
shared `existing_issues` dict after a creation.  The spec requires
exactly one write and the same id for both. -/
theorem duplicate_url_creates_two_tickets :
    reconcileAll ⟨true, some "tok", some "owner/repo"⟩ (fun n _ => some (100 + n))
        (fun _ => Except.ok []) 0
        [⟨"a/nb1.ipynb", 0, "http://x.com", "404", 404, ""⟩,
         ⟨"b/nb2.ipynb", 3, "http://x.com", "404", 404, ""⟩] [] =
      ([some 100, some 101],
       [buildPayload ⟨"a/nb1.ipynb", 0, "http://x.com", "404", 404, ""⟩,
        buildPayload ⟨"b/nb2.ipynb", 3, "http://x.com", "404", 404, ""⟩]) ∧
    (reconcileAll ⟨true, some "tok", some "owner/repo"⟩ (fun n _ => some (100 + n))
        (fun _ => Except.ok []) 0
        [⟨"a/nb1.ipynb", 0, "http://x.com", "404", 404, ""⟩,
         ⟨"b/nb2.ipynb", 3, "http://x.com", "404", 404, ""⟩] []).2.length = 2 := by
  constructor
  · rfl
  · rfl

/-- A string equal to `x ++ y ++ z` has `y` as a substring. -/
theorem strHasSub_of_parts (x y z s : String) (h : s = x ++ y ++ z) : strHasSub s y := by
  subst h
  exact ⟨x.data, z.data, by simp [String.data_append, List.append_assoc]⟩

/-- Claim C9.  The constructed ticket: the title holds the URL truncated
to its first 57 characters plus `...` exactly when the URL is longer
than 60 characters (else the full URL); the body embeds the upper-cased
status, the URL, the notebook filename (final path component), and the
cell index; the HTTP-status-code segment is present exactly when the
code is non-zero and the additional-info segment exactly when the info
is non-empty; the labels are `broken-link` and `automated`. -/
theorem create_issue_payload_construction (d : LinkIssue) :
    buildTitle d =
      "Broken link: " ++ (if d.url.length > 60 then d.url.take 57 ++ "..." else d.url) ∧
    (buildPayload d).labels = ["broken-link", "automated"] ∧
    strHasSub (buildBody d) ("**Status:** " ++ pyUpper d.status) ∧
    strHasSub (buildBody d) ("**URL:** `" ++ d.url ++ "`") ∧
    strHasSub (buildBody d) ("**Notebook:** `" ++ pathName d.notebook ++ "`") ∧
    strHasSub (buildBody d) ("**Cell:** " ++ toString d.cell) ∧
    buildBody d =
      bodyHeader d ++ (if d.status_code ≠ 0 then httpCodeLine d else "") ++
        (if d.info ≠ "" then infoLine d else "") ++ bodyFooter := by
  refine ⟨rfl, rfl, ?_, ?_, ?_, ?_, rfl⟩
  · exact strHasSub_of_parts "## Broken Link Detected\n\n" _
      ("\n" ++ ("**URL:** `" ++ d.url ++ "`") ++ "\n" ++
        ("**Notebook:** `" ++ pathName d.notebook ++ "`") ++ "\n" ++
        ("**Cell:** " ++ toString d.cell) ++ "\n\n" ++
        (if d.status_code ≠ 0 then httpCodeLine d else "") ++
        (if d.info ≠ "" then infoLine d else "") ++ bodyFooter) _
      (by simp only [buildBody, bodyHeader, String.append_assoc])
  · exact strHasSub_of_parts
      ("## Broken Link Detected\n\n" ++ ("**Status:** " ++ pyUpper d.status) ++ "\n") _
      ("\n" ++ ("**Notebook:** `" ++ pathName d.notebook ++ "`") ++ "\n" ++
        ("**Cell:** " ++ toString d.cell) ++ "\n\n" ++
        (if d.status_code ≠ 0 then httpCodeLine d else "") ++
        (if d.info ≠ "" then infoLine d else "") ++ bodyFooter) _
      (by simp only [buildBody, bodyHeader, String.append_assoc])
  · exact strHasSub_of_parts
      ("## Broken Link Detected\n\n" ++ ("**Status:** " ++ pyUpper d.status) ++ "\n" ++
        ("**URL:** `" ++ d.url ++ "`") ++ "\n") _
      ("\n" ++ ("**Cell:** " ++ toString d.cell) ++ "\n\n" ++
        (if d.status_code ≠ 0 then httpCodeLine d else "") ++
        (if d.info ≠ "" then infoLine d else "") ++ bodyFooter) _
      (by simp only [buildBody, bodyHeader, String.append_assoc])
  · exact strHasSub_of_parts
      ("## Broken Link Detected\n\n" ++ ("**Status:** " ++ pyUpper d.status) ++ "\n" ++
        ("**URL:** `" ++ d.url ++ "`") ++ "\n" ++
        ("**Notebook:** `" ++ pathName d.notebook ++ "`") ++ "\n") _
      ("\n\n" ++ (if d.status_code ≠ 0 then httpCodeLine d else "") ++
        (if d.info ≠ "" then infoLine d else "") ++ bodyFooter) _
      (by simp only [buildBody, bodyHeader, String.append_assoc])

/-- Per-cell helper for claim C8: a link whose scheme makes
`shouldSkipLink` true is never probed and never recorded by the
per-link loop. -/
theorem processLinks_skip_lemma (nbPath : String) (cellIdx : Nat)
    (probe : String → String × Nat × String) (links : List String) (u : String)
    (h : shouldSkipLink u = true) :
    u ∉ (processLinks nbPath cellIdx probe links).2 ∧
    ∀ r ∈ (processLinks nbPath cellIdx probe links).1, r.url ≠ u := by
  induction links with
  | nil => simp [processLinks]
  | cons link rest ih =>
    by_cases hs : shouldSkipLink link = true
    · have hstep : processLinks nbPath cellIdx probe (link :: rest) =
          processLinks nbPath cellIdx probe rest := by
        simp only [processLinks, hs, if_true]
      rw [hstep]
      exact ih
    · have hne : ¬ u = link := by
        intro e
        rw [e] at h
        exact hs h
      by_cases hp : (probe link).1 = "404" ∨ (probe link).1 = "redirect" ∨
          (probe link).1 = "error"
      · have hstep : processLinks nbPath cellIdx probe (link :: rest) =
            (⟨nbPath, cellIdx, link, (probe link).1, (probe link).2.1, (probe link).2.2⟩ ::
               (processLinks nbPath cellIdx probe rest).1,
             link :: (processLinks nbPath cellIdx probe rest).2) := by
          simp only [processLinks, hs, if_false, hp, if_true, Bool.false_eq_true]
        rw [hstep]
        constructor
        · simp only [List.mem_cons, not_or]
          exact ⟨hne, ih.1⟩
        · intro r hr
          rcases List.mem_cons.mp hr with h1 | h1
          · rw [h1]
            exact fun e => hne e.symm
          · exact ih.2 r h1
      · have hstep : processLinks nbPath cellIdx probe (link :: rest) =
            ((processLinks nbPath cellIdx probe rest).1,
             link :: (processLinks nbPath cellIdx probe rest).2) := by
          simp only [processLinks, hs, if_false, hp, if_true, Bool.false_eq_true]
        rw [hstep]
        constructor
        · simp only [List.mem_cons, not_or]
          exact ⟨hne, ih.1⟩
        · exact ih.2

/-- Per-notebook helper for claim C8. -/
theorem processCells_skip_lemma (nbPath : String)
    (probe : String → String × Nat × String) (u : String)
    (h : shouldSkipLink u = true) (idx : Nat) (cells : List Cell) :
    u ∉ (processCells nbPath probe idx cells).2 ∧
    ∀ r ∈ (processCells nbPath probe idx cells).1, r.url ≠ u := by
  induction cells generalizing idx with
  | nil => simp [processCells]
  | cons c cs ih =>
    have hc := ih (idx + 1)
    by_cases hmd : c.cell_type = "markdown"
    · have hl := processLinks_skip_lemma nbPath idx probe
        (extract_links_from_markdown (String.join c.source)) u h
      simp only [processCells, hmd, if_pos]
      constructor
      · simp only [List.mem_append, not_or]
        exact ⟨hl.1, hc.1⟩
      · intro r hr
        rcases List.mem_append.mp hr with h1 | h1
        · exact hl.2 r h1
        · exact hc.2 r h1
    · simp only [processCells, hmd, if_false]
      simpa using hc

/-- Claim C8.  For every link whose parsed scheme is absent/empty or
`file`, `check_notebook_links` skips probing entirely: the link is never
passed to `check_url` and no failure record carries it. -/
theorem scheme_skip_no_probe (nbPath : String) (cells : List Cell)
    (probe : String → String × Nat × String) (u : String)
    (h : schemeOf u = "" ∨ schemeOf u = "file") :
    u ∉ (check_notebook_links nbPath cells probe).2 ∧
    ∀ r ∈ (check_notebook_links nbPath cells probe).1, r.url ≠ u := by
  have hskip : shouldSkipLink u = true := by
    rcases h with h | h <;> simp [shouldSkipLink, h]
  exact processCells_skip_lemma nbPath probe u hskip 0 cells

/-- Membership in the output of the deduplication loop. -/
theorem dedupGo_mem (ls : List String) : ∀ (acc : List String) (u : String),
    u ∈ dedupGo acc ls ↔ u ∈ acc ∨ u ∈ ls := by
  induction ls with
  | nil =>
    intro acc u
    simp [dedupGo]
  | cons l ls ih =>
    intro acc u
    by_cases hl : l ∈ acc
    · rw [dedupGo, if_pos hl, ih]
      constructor
      · rintro (h | h)
        exacts [Or.inl h, Or.inr (List.mem_cons_of_mem _ h)]
      · rintro (h | h)
        · exact Or.inl h
        · rcases List.mem_cons.mp h with rfl | h2
          · exact Or.inl hl
          · exact Or.inr h2
    · rw [dedupGo, if_neg hl, ih]
      simp only [List.mem_append, List.mem_singleton, List.mem_cons]
      tauto

/-- The deduplication loop never emits a string twice. -/
theorem dedupGo_nodup (ls : List String) : ∀ acc : List String, acc.Nodup →
    (dedupGo acc ls).Nodup := by
  induction ls with
  | nil =>
    intro acc h
    simpa [dedupGo] using h
  | cons l ls ih =>
    intro acc h
    by_cases hl : l ∈ acc
    · rw [dedupGo, if_pos hl]
      exact ih acc h
    · rw [dedupGo, if_neg hl]
      apply ih
      simp [List.nodup_append, h, List.disjoint_singleton, hl]

/-- The deduplication loop appends (to the seen accumulator) a sublist
of its input: kept elements stay in input order. -/
theorem dedupGo_sublist (ls : List String) : ∀ acc : List String,
    ∃ ls2, ls2.Sublist ls ∧ dedupGo acc ls = acc ++ ls2 := by
  induction ls with
  | nil =>
    intro acc
    exact ⟨[], List.Sublist.refl [], by simp [dedupGo]⟩
  | cons l ls ih =>
    intro acc
    by_cases hl : l ∈ acc
    · obtain ⟨ls2, hsub, heq⟩ := ih acc
      exact ⟨ls2, List.Sublist.cons l hsub, by rw [dedupGo, if_pos hl]; exact heq⟩
    · obtain ⟨ls2, hsub, heq⟩ := ih (acc ++ [l])
      refine ⟨l :: ls2, List.Sublist.cons₂ l hsub, ?_⟩
      rw [dedupGo, if_neg hl, heq, List.append_assoc]
      rfl

/-- `firstIdx` of the head element. -/
theorem firstIdx_cons_self (x : String) (l : List String) : firstIdx (x :: l) x = 0 := by
  simp [firstIdx]

/-- `firstIdx` skips a prefix not containing the element. -/
theorem firstIdx_append_of_not_mem (xs ys : List String) (x : String)
    (h : x ∉ xs) : firstIdx (xs ++ ys) x = xs.length + firstIdx ys x := by
  induction xs with
  | nil => simp [firstIdx]
  | cons a xs ih =>
    have ha : ¬ a = x := by
      intro e
      subst e
      exact h (List.mem_cons_self _ _)
    have h2 : x ∉ xs := fun hx => h (List.mem_cons_of_mem _ hx)
    rw [List.cons_append, firstIdx, if_neg ha, ih h2, List.length_cons]
    omega

/-- Invariant proof that the deduplication loop emits elements in order
of strictly increasing first occurrence in the full input list. -/
theorem dedupGo_pairwise (full : List String) : ∀ (ls pre acc : List String),
    full = pre ++ ls →
    (∀ u, u ∈ acc ↔ u ∈ pre) →
    (∀ a ∈ acc, firstIdx full a < pre.length) →
    acc.Pairwise (fun a b => firstIdx full a < firstIdx full b) →
    (dedupGo acc ls).Pairwise (fun a b => firstIdx full a < firstIdx full b) := by
  intro ls
  induction ls with
  | nil =>
    intro pre acc hfull hmem hidx hpw
    simpa [dedupGo] using hpw
  | cons l ls ih =>
    intro pre acc hfull hmem hidx hpw
    by_cases hl : l ∈ acc
    · rw [dedupGo, if_pos hl]
      apply ih (pre ++ [l]) acc
      · rw [hfull, List.append_assoc]
        rfl
      · intro u
        rw [hmem u]
        constructor
        · exact fun h => List.mem_append_left _ h
        · intro h
          rcases List.mem_append.mp h with h | h
          · exact h
          · rcases List.mem_singleton.mp h with rfl
            exact (hmem _).mp hl
      · intro a ha
        have := hidx a ha
        simp only [List.length_append, List.length_singleton]
        omega
      · exact hpw
    · rw [dedupGo, if_neg hl]
      have hlpre : l ∉ pre := fun hp => hl ((hmem l).mpr hp)
      have hfirst : firstIdx full l = pre.length := by
        rw [hfull, firstIdx_append_of_not_mem _ _ _ hlpre, firstIdx_cons_self]
        omega
      apply ih (pre ++ [l]) (acc ++ [l])
      · rw [hfull, List.append_assoc]
        rfl
      · intro u
        simp only [List.mem_append, List.mem_singleton, hmem u]
      · intro a ha
        simp only [List.length_append, List.length_singleton]
        rcases List.mem_append.mp ha with h | h
        · have := hidx a h
          omega
        · rcases List.mem_singleton.mp h with rfl
          omega
      · rw [List.pairwise_append]
        refine ⟨hpw, by simp, ?_⟩
        intro a ha b hb
        rcases List.mem_singleton.mp hb with rfl
        rw [hfirst]
        exact hidx a ha

/-- Claim C3.  For all markdown text, the extracted list has no
duplicate strings; an URL is extracted exactly when one of the two
passes collects it (markdown-link targets first, then bare URLs — the
combined sequence the definition concatenates); kept entries appear in
the combined sequence's order; and the entries are sorted by strictly
increasing index of first appearance in the combined sequence, so a URL
found by both passes is emitted once, at its first-seen position. -/
theorem extract_links_nodup_first_seen_order (text : String) :
    (extract_links_from_markdown text).Nodup ∧
    (∀ u, u ∈ extract_links_from_markdown text ↔
      u ∈ scanMarkdown text.data ++ scanBare text.data) ∧
    (extract_links_from_markdown text).Sublist
      (scanMarkdown text.data ++ scanBare text.data) ∧
    (extract_links_from_markdown text).Pairwise
      (fun a b => firstIdx (scanMarkdown text.data ++ scanBare text.data) a <
        firstIdx (scanMarkdown text.data ++ scanBare text.data) b) := by
  refine ⟨?_, ?_, ?_, ?_⟩
  · exact dedupGo_nodup _ [] List.nodup_nil
  · intro u
    rw [extract_links_from_markdown, dedupGo_mem]
    simp
  · obtain ⟨ls2, hsub, heq⟩ :=
      dedupGo_sublist (scanMarkdown text.data ++ scanBare text.data) []
    rw [extract_links_from_markdown, heq]
    simpa using hsub
  · exact dedupGo_pairwise _ _ [] [] rfl (by simp) (by simp) List.Pairwise.nil

/-- Witness for `scheme_skip_no_probe`: the anchor link of a concrete
markdown cell is neither probed nor recorded. -/
theorem scheme_skip_no_probe_witness :
    "#sec" ∉ (check_notebook_links "nb.ipynb"
      [⟨"markdown", ["[a](#sec) and [b](file:///tmp/x) see http://ok.com"]⟩]
      (fun _ => ("ok", 200, ""))).2 ∧
    ∀ r ∈ (check_notebook_links "nb.ipynb"
      [⟨"markdown", ["[a](#sec) and [b](file:///tmp/x) see http://ok.com"]⟩]
      (fun _ => ("ok", 200, ""))).1, r.url ≠ "#sec" :=
  scheme_skip_no_probe "nb.ipynb"
    [⟨"markdown", ["[a](#sec) and [b](file:///tmp/x) see http://ok.com"]⟩]
    (fun _ => ("ok", 200, "")) "#sec" (Or.inl (by decide))

end CheckLinks
